import Mathlib

/-!
# Verification of the vocal-couch real-time pitch engine

Shallow embedding of the pitch-estimation and note-matching core of the
`vocal-couch` repository (`src/utils/pitchDetection.ts`,
`src/utils/musicUtils.ts`, and the `MicrophoneAnalyzer` analysis tick in
`src/components/ResultsDisplay.tsx`), together with theorems settling the
spec claims about it.

Modelling conventions:
* JavaScript floating-point numbers are modelled as real numbers `ℝ`
  (times and note boundaries, which the claims quantify over with exact
  decimal values, are modelled as rationals `ℚ` so that the tracker is
  executable); `isFinite` checks, always true in this model, are noted in
  comments where the source performs them.
* JavaScript `%` on integers is truncated remainder, `Int.tmod`.
* Fallible paths (`return null`, `return NaN`, and a thrown-and-caught
  `TypeError` on an out-of-bounds array read) are modelled with
  `Option`/`Except`.
-/

namespace VocalCouch

/-! ## musicUtils.ts -/

/-- `midiToFrequency` (musicUtils.ts): `440 * Math.pow(2, (midiNote - 69) / 12)`. -/
noncomputable def midiToFrequency (midiNote : ℤ) : ℝ :=
  440 * (2 : ℝ) ^ (((midiNote : ℝ) - 69) / 12)

/-- `frequencyToMidi` (musicUtils.ts): `Math.round(12 * Math.log2(frequency / 440) + 69)`.
`Math.round` rounds half up, as does Lean's `round`. -/
noncomputable def frequencyToMidi (frequency : ℝ) : ℤ :=
  round (12 * Real.logb 2 (frequency / 440) + 69)

/-- The fixed 12-entry chromatic table of `musicUtils.ts` (one array literal
in the source, written here as two halves). -/
def noteNames : List String :=
  ["C", "C#", "D", "D#", "E", "F"] ++ ["F#", "G", "G#", "A", "A#", "B"]

/-- `getMidiNoteNameOnly` (musicUtils.ts): `noteNames[midiNote % 12]`.
JavaScript `%` truncates, so a negative index yields `undefined`;
we return the string `"undefined"` in that case (JS string coercion). -/
def getMidiNoteNameOnly (midiNote : ℤ) : String :=
  let i := midiNote.tmod 12
  if 0 ≤ i ∧ i < 12 then noteNames.getD i.toNat "undefined" else "undefined"

/-- `getMidiNoteName` (musicUtils.ts): name plus octave `Math.floor(midiNote / 12) - 1`.
JS `/` is real division, so the octave is `⌊midiNote / 12⌋ - 1`. -/
def getMidiNoteName (midiNote : ℤ) : String :=
  getMidiNoteNameOnly midiNote ++ toString (Int.fdiv midiNote 12 - 1)

/-- `isOctaveEquivalent` (musicUtils.ts): `(midi1 % 12) === (midi2 % 12)` with
JavaScript truncated remainder. -/
def isOctaveEquivalent (midi1 midi2 : ℤ) : Bool :=
  midi1.tmod 12 == midi2.tmod 12

/-- A reference note as read by the analysis tick (`currentSong.notes` entries):
`{ id, time, duration, pitch, frequency, name }`.  The stored `frequency` and
`name` come from the external song data; the tick recomputes both through
`transposeNote` before use. -/
structure Note where
  id : String
  time : ℚ
  duration : ℚ
  pitch : ℤ
  frequency : ℝ
  name : String

/-- `transposeNote` (musicUtils.ts): shifts `pitch`, recomputes `frequency`
and `name`, and keeps every other field (in particular `id`). -/
noncomputable def transposeNote (note : Note) (semitones : ℤ) : Note :=
  { note with
    pitch := note.pitch + semitones
    frequency := midiToFrequency (note.pitch + semitones)
    name := getMidiNoteNameOnly (note.pitch + semitones) }

@[simp] theorem transposeNote_id (note : Note) (semitones : ℤ) :
    (transposeNote note semitones).id = note.id := rfl

@[simp] theorem transposeNote_pitch (note : Note) (semitones : ℤ) :
    (transposeNote note semitones).pitch = note.pitch + semitones := rfl

@[simp] theorem transposeNote_frequency (note : Note) (semitones : ℤ) :
    (transposeNote note semitones).frequency = midiToFrequency (note.pitch + semitones) := rfl

/-! ## Cents wrapping (ResultsDisplay.tsx, `centsToNearestOctave`)

```js
if (!isFinite(targetHz) || !isFinite(detectedHz) || targetHz <= 0 || detectedHz <= 0) return 0;
let cents = 1200 * Math.log2(detectedHz / targetHz);
while (cents > 600) cents -= 1200;
while (cents < -600) cents += 1200;
return cents;
```
-/

/-- First wrapping loop: `while (cents > 600) cents -= 1200`. -/
noncomputable def wrapDown (c : ℝ) : ℝ :=
  if h : c > 600 then wrapDown (c - 1200) else c
termination_by (⌈(c - 600) / 1200⌉).toNat
decreasing_by
  have h1 : (1 : ℤ) ≤ ⌈(c - 600) / 1200⌉ := by
    rw [Int.le_ceil_iff]
    push_cast
    have : (0 : ℝ) < (c - 600) / 1200 := div_pos (by linarith) (by norm_num)
    linarith
  have h2 : (c - 1200 - 600) / 1200 = (c - 600) / 1200 - 1 := by ring
  rw [h2]
  rw [Int.ceil_sub_one]
  omega

/-- Second wrapping loop: `while (cents < -600) cents += 1200`. -/
noncomputable def wrapUp (c : ℝ) : ℝ :=
  if h : c < -600 then wrapUp (c + 1200) else c
termination_by (⌈(-600 - c) / 1200⌉).toNat
decreasing_by
  have h1 : (1 : ℤ) ≤ ⌈(-600 - c) / 1200⌉ := by
    rw [Int.le_ceil_iff]
    push_cast
    have : (0 : ℝ) < (-600 - c) / 1200 := div_pos (by linarith) (by norm_num)
    linarith
  have h2 : (-600 - (c + 1200)) / 1200 = (-600 - c) / 1200 - 1 := by ring
  rw [h2]
  rw [Int.ceil_sub_one]
  omega

/-- The composed wrap of `centsToNearestOctave`: down-loop then up-loop. -/
noncomputable def wrapCents (c : ℝ) : ℝ := wrapUp (wrapDown c)

/-- `centsToNearestOctave` (ResultsDisplay.tsx).  The `isFinite` guards are
vacuous over `ℝ`. -/
noncomputable def centsToNearestOctave (targetHz detectedHz : ℝ) : ℝ :=
  if targetHz ≤ 0 ∨ detectedHz ≤ 0 then 0
  else wrapCents (1200 * Real.logb 2 (detectedHz / targetHz))

/-! ## Classification (ResultsDisplay.tsx lines 304–313) -/

/-- The accuracy score: `Math.max(0, 1 - Math.abs(deviation) / 1200)`. -/
noncomputable def accuracyScore (deviation : ℝ) : ℝ :=
  max 0 (1 - |deviation| / 1200)

open Classical in
/-- The on-pitch decision: `Math.abs(deviation) <= 50 || octaveAdjusted`. -/
noncomputable def isOnPitchDecision (deviation : ℝ) (targetPitch detectedPitch : ℤ) : Bool :=
  decide (|deviation| ≤ 50) || isOctaveEquivalent targetPitch detectedPitch

/-! ## pitchDetection.ts — the YIN estimator

The detector's time-domain buffer is a sample window `x : List ℝ`; the CMNDF
buffer, reused in place by the source, is modelled as the function `cmndf x`.
All array reads of the source stay within `[0, maxTauClamped]`, where the
CMNDF is computed, so the total function is a faithful view of the buffer. -/

/-- `computeRMS`: `Math.sqrt(sum(v*v) / buf.length)`.  For an empty buffer JS
yields `NaN` (rejected by the caller's `isFinite` check); here `0/0 = 0` and
`√0 = 0 < 0.01`, rejected by the same comparison. -/
noncomputable def computeRMS (buf : List ℝ) : ℝ :=
  Real.sqrt ((buf.map fun v => v * v).sum / buf.length)

/-- Step 1, the difference function: `d(τ) = Σ_{i < N-τ} (x[i] - x[i+τ])²`. -/
noncomputable def yinDiff (x : List ℝ) (tau : ℕ) : ℝ :=
  ∑ i ∈ Finset.range (x.length - tau), (x.getD i 0 - x.getD (i + tau) 0) ^ 2

/-- The running sum `Σ_{s=1..τ} d(s)` accumulated by the CMNDF loop. -/
noncomputable def yinRunningSum (x : List ℝ) (tau : ℕ) : ℝ :=
  ∑ s ∈ Finset.Icc 1 tau, yinDiff x s

open Classical in
/-- Step 2, the cumulative mean normalized difference function:
`yin[0] = 1`, `yin[τ] = d(τ)·τ / (runningSum || 1e-12)`. -/
noncomputable def cmndf (x : List ℝ) (tau : ℕ) : ℝ :=
  if tau = 0 then 1
  else yinDiff x tau * tau /
    (if yinRunningSum x tau = 0 then 1e-12 else yinRunningSum x tau)

open Classical in
/-- Step 3, the absolute-threshold search loop, scanning lag `tau` upward to
`maxTau` with the running minimum `yinMin` (initially 1):

```js
if (val < this.yinThreshold && val <= yinMin) {
  if (tau + 1 <= maxTauClamped && val <= yin[tau + 1]) { tauEstimate = tau; yinMin = val; break; }
}
if (val < yinMin) yinMin = val;
```

Returns the accepted lag, `none` when the loop falls through. -/
noncomputable def yinSearchLoop (yin : ℕ → ℝ) (maxTau tau : ℕ) (yinMin : ℝ) : Option ℕ :=
  if tau ≤ maxTau then
    if yin tau < 0.15 ∧ yin tau ≤ yinMin ∧ tau + 1 ≤ maxTau ∧ yin tau ≤ yin (tau + 1) then
      some tau
    else
      yinSearchLoop yin maxTau (tau + 1) (if yin tau < yinMin then yin tau else yinMin)
  else none
termination_by maxTau + 1 - tau

open Classical in
/-- The fallback global-minimum scan (`minV = Infinity; minI = -1;` then
`if (yin[tau] < minV) { minV := yin[tau]; minI := tau }`): the accumulator is
`none` while `minI = -1`. -/
noncomputable def yinGlobalMin (yin : ℕ → ℝ) (maxTau tau : ℕ) (acc : Option (ℝ × ℕ)) :
    Option (ℝ × ℕ) :=
  if tau ≤ maxTau then
    yinGlobalMin yin maxTau (tau + 1)
      (match acc with
        | none => some (yin tau, tau)
        | some (v, i) => if yin tau < v then some (yin tau, tau) else some (v, i))
  else acc
termination_by maxTau + 1 - tau

/-- The threshold search with its global-minimum fallback: the selected
integer lag `tauEstimate` together with the recorded CMNDF minimum
(`_lastYinMin`), or `none` for the `tauEstimate ≤ 0 → return NaN` path
(reachable only when the search range is empty). -/
noncomputable def yinSelectTau (yin : ℕ → ℝ) (minTau maxTau : ℕ) : Option (ℕ × ℝ) :=
  match yinSearchLoop yin maxTau (max 2 minTau) 1 with
  | some tau => some (tau, yin tau)
  | none =>
    match yinGlobalMin yin maxTau (max 2 minTau) none with
    | some (v, i) => some (i, v)
    | none => none

open Classical in
/-- Step 5, `checkAndMaybeReplace`: linearly interpolate the CMNDF at the
non-integer lag `betterTau * mult` and replace `finalTau` when its value
beats the value at `betterTau` by `margin`.  In JS a lag with negative floor
reads `undefined` from the array and the resulting `NaN` comparison fails, so
no replacement happens; the sign guards mirror that. -/
noncomputable def subharmonicReplace (yin : ℕ → ℝ) (maxTauClamped : ℕ)
    (betterTau finalTau mult margin : ℝ) : ℝ :=
  let tau2 := betterTau * mult
  if tau2 ≤ (maxTauClamped : ℝ) then
    let i : ℤ := ⌊tau2⌋
    let i0 : ℤ := ⌊betterTau⌋
    if 0 ≤ i ∧ 0 ≤ i0 then
      let frac := tau2 - i
      let yA := yin i.toNat
      let yB := if i + 1 ≤ (maxTauClamped : ℤ) then yin (i.toNat + 1) else yA
      let yTau2 := yA + (yB - yA) * frac
      let frac0 := betterTau - i0
      let yA0 := yin i0.toNat
      let yB0 := if i0 + 1 ≤ (maxTauClamped : ℤ) then yin (i0.toNat + 1) else yA0
      let yTau := yA0 + (yB0 - yA0) * frac0
      if yTau2 + margin < yTau then tau2 else finalTau
    else finalTau
  else finalTau

open Classical in
/-- `yinDetectFrequency` (steps 1–6): the detected frequency paired with the
recorded CMNDF minimum `_lastYinMin`; `none` models the `return NaN` path
(which records `_lastYinMin = 1`). -/
noncomputable def yinDetectFrequency (x : List ℝ) (minTau maxTau : ℕ) (sampleRate : ℝ) :
    Option ℝ × ℝ :=
  let maxTauClamped := min maxTau (x.length - 1)
  let yin := cmndf x
  match yinSelectTau yin minTau maxTauClamped with
  | none => (none, 1)
  | some (tauEstimate, yinMin) =>
    -- step 4: parabolic interpolation on the CMNDF around tauEstimate
    let betterTau : ℝ :=
      if 1 < tauEstimate ∧ tauEstimate < maxTauClamped then
        let x0 := yin (tauEstimate - 1)
        let x1 := yin tauEstimate
        let x2 := yin (tauEstimate + 1)
        let denom := 2 * (2 * x1 - x0 - x2)
        if 1e-12 < |denom| then (tauEstimate : ℝ) + (x2 - x0) / denom else (tauEstimate : ℝ)
      else (tauEstimate : ℝ)
    -- step 5: prefer τ×2 or τ×3 when the CMNDF there is clearly better
    let tauAfter2 := subharmonicReplace yin maxTauClamped betterTau betterTau 2 0.015
    let finalTau := subharmonicReplace yin maxTauClamped betterTau tauAfter2 3 0.02
    (some (sampleRate / finalTau), yinMin)

/-- `audioContext.sampleRate || 44100`. -/
noncomputable def srOf (rate : ℝ) : ℝ := if rate = 0 then 44100 else rate

/-- `minTau = Math.max(2, Math.floor(sampleRate / maxFreq))` (maxFreq 2000). -/
noncomputable def minTauOf (rate : ℝ) : ℕ := (max 2 ⌊srOf rate / 2000⌋).toNat

/-- `maxTau = Math.min(timeBufferSize - 1, Math.floor(sampleRate / minFreq))`
(minFreq 80).  A negative value (impossible for a real sample rate) clamps to
0, which like the JS original leaves the search range empty. -/
noncomputable def maxTauOf (timeData : List ℝ) (rate : ℝ) : ℕ :=
  (min ((timeData.length : ℤ) - 1) ⌊srOf rate / 80⌋).toNat

/-- The frequency estimate `detectPitch` works with. -/
noncomputable def detectedFrequency (timeData : List ℝ) (rate : ℝ) : Option ℝ :=
  (yinDetectFrequency timeData (minTauOf rate) (maxTauOf timeData rate) (srOf rate)).1

/-- The fields of a `PitchDetectionResult` (timestamp omitted). -/
structure PitchDetectionResult where
  frequency : ℝ
  pitch : ℤ
  noteName : String
  noteNameOnly : String
  confidence : ℝ
  clarity : ℝ

open Classical in
/-- `detectPitch` of an initialized detector, as a pure function of the
captured sample window and the audio context's sample rate.  `null` is
`none`; the `!isFinite(rms)` and `!isFinite(freq)` guards are vacuous over
`ℝ` (the JS `NaN`/`Infinity` sources — empty window, zero final lag — land
in the same rejections here through `0/0 = 0` and `x/0 = 0`). -/
noncomputable def detectPitch (timeData : List ℝ) (rate : ℝ) : Option PitchDetectionResult :=
  -- VAD: simple RMS energy gate
  let rms := computeRMS timeData
  if rms < 0.01 then none
  else
    match yinDetectFrequency timeData (minTauOf rate) (maxTauOf timeData rate) (srOf rate) with
    | (none, _) => none
    | (some freq, yinMin) =>
      if freq < 80 ∨ 2000 < freq then none
      else
        let pitch := frequencyToMidi freq
        let clarity := max 0 (min 1 (1 - yinMin))
        let confidence := max 0 (min 1 (0.5 * clarity + 0.5 * min 1 (rms / 0.1)))
        some { frequency := freq, pitch := pitch, noteName := getMidiNoteName pitch,
               noteNameOnly := getMidiNoteNameOnly pitch, confidence := confidence,
               clarity := clarity }

/-- **C4** — For an initialized detector, `detectPitch` yields "no pitch
detected" exactly when the sample window's RMS energy is below the 0.01 VAD
threshold (non-finite RMS collapses to the same rejection), or the YIN
estimator finds no valid lag, or the estimated frequency lies outside
[80, 2000] Hz; otherwise it returns a populated result.  In particular an
all-zero window always yields null. -/
theorem detectPitch_null_spec :
    (∀ (timeData : List ℝ) (rate : ℝ),
      detectPitch timeData rate = none ↔
        (computeRMS timeData < 0.01 ∨ detectedFrequency timeData rate = none ∨
          ∃ f, detectedFrequency timeData rate = some f ∧ (f < 80 ∨ 2000 < f))) ∧
    (∀ (n : ℕ) (rate : ℝ), detectPitch (List.replicate n 0) rate = none) := by
  have hzero : ∀ n : ℕ, computeRMS (List.replicate n 0) = 0 := by
    intro n
    unfold computeRMS
    simp
  constructor
  · intro timeData rate
    by_cases h1 : computeRMS timeData < 0.01
    · simp [detectPitch, h1]
    · rcases hyd : yinDetectFrequency timeData (minTauOf rate) (maxTauOf timeData rate)
        (srOf rate) with ⟨fopt, ym⟩
      have hdf : detectedFrequency timeData rate = fopt := by
        rw [detectedFrequency, hyd]
      cases fopt with
      | none => simp [detectPitch, h1, hyd, hdf]
      | some f =>
        by_cases h2 : f < 80 ∨ 2000 < f
        · refine iff_of_true ?_ (Or.inr (Or.inr ⟨f, hdf, h2⟩))
          simp [detectPitch, h1, hyd, h2]
        · refine iff_of_false ?_ ?_
          · simp [detectPitch, h1, hyd, h2]
          · rintro (h | h | ⟨f', hf', hout⟩)
            · exact h1 h
            · rw [hdf] at h
              exact absurd h (by simp)
            · rw [hdf, Option.some_inj] at hf'
              rw [← hf'] at hout
              exact h2 hout
  · intro n rate
    have h : computeRMS (List.replicate n 0) < 0.01 := by
      rw [hzero]
      norm_num
    simp [detectPitch, h]

/-! ## C5: the threshold search against its specification -/

/-- The spec's acceptance predicate: the first τ with `CMNDF[τ] < 0.15` and
`CMNDF[τ] ≤ CMNDF[τ+1]` is selected (the comparison needs `τ+1` inside the
searched range). -/
def yinAccept (yin : ℕ → ℝ) (maxTau tau : ℕ) : Prop :=
  yin tau < 0.15 ∧ tau + 1 ≤ maxTau ∧ yin tau ≤ yin (tau + 1)

open Classical in
/-- Modelled from the spec's words: "scan τ from max(2, minTau) upward;
accept the first τ where CMNDF[τ] < a fixed threshold (0.15) AND is a local
minimum (CMNDF[τ] ≤ CMNDF[τ+1])". -/
noncomputable def yinFirstThresholdTau (yin : ℕ → ℝ) (minTau maxTau : ℕ) : Option ℕ :=
  (List.range' (max 2 minTau) (maxTau + 1 - max 2 minTau)).find?
    fun tau => decide (yinAccept yin maxTau tau)

/-- Modelled from the spec's words: "fall back to the global minimum of
CMNDF over the search range" (first position on ties, as a strict scan
keeps). -/
noncomputable def yinArgminTau (yin : ℕ → ℝ) (minTau maxTau : ℕ) : Option ℕ :=
  (List.range' (max 2 minTau) (maxTau + 1 - max 2 minTau)).argmin yin

/-- The spec-side selection: first threshold crossing, else global minimum. -/
noncomputable def yinSelectTauSpec (yin : ℕ → ℝ) (minTau maxTau : ℕ) : Option ℕ :=
  match yinFirstThresholdTau yin minTau maxTau with
  | some tau => some tau
  | none => yinArgminTau yin minTau maxTau

/-- Once the CMNDF has crossed below the threshold, it descends strictly
until the first below-threshold local minimum: so that first acceptable σ
has the smallest CMNDF value among all lags scanned before it. -/
theorem yinAccept_first_le (yin : ℕ → ℝ) (maxTau : ℕ) {σ : ℕ}
    (hQ : yinAccept yin maxTau σ) :
    ∀ d ρ, ρ + d = σ → 0 < d →
      (∀ ρ', ρ ≤ ρ' → ρ' < σ → ¬ yinAccept yin maxTau ρ') →
      yin σ ≤ yin ρ := by
  intro d
  induction d with
  | zero => intro ρ _ h0 _; omega
  | succ k ih =>
    intro ρ hsum _ hnone
    have hρσ : ρ < σ := by omega
    have hnQ := hnone ρ le_rfl hρσ
    by_cases hth : yin ρ < 0.15
    · have hQb := hQ.2.1
      have hbound : ρ + 1 ≤ maxTau := by omega
      have hdesc : yin (ρ + 1) < yin ρ := by
        by_contra hge
        exact hnQ ⟨hth, hbound, not_lt.mp hge⟩
      rcases Nat.eq_zero_or_pos k with rfl | hk
      · have hσ : ρ + 1 = σ := by omega
        rw [hσ] at hdesc
        linarith
      · have hih := ih (ρ + 1) (by omega) hk (fun ρ' h1 h2 => hnone ρ' (by omega) h2)
        linarith
    · have h15 : (0.15 : ℝ) ≤ yin ρ := not_lt.mp hth
      linarith [hQ.1]

open Classical in
/-- The search loop of the source equals "first acceptable τ" whenever the
running minimum dominates the value at the first acceptable lag — the
`val ≤ yinMin` conjunct of the source is then redundant. -/
theorem yinSearchLoop_eq_find? (yin : ℕ → ℝ) (maxTau : ℕ) :
    ∀ (n tau : ℕ) (m : ℝ), n = maxTau + 1 - tau →
      (∀ σ, tau ≤ σ → yinAccept yin maxTau σ →
        (∀ ρ, tau ≤ ρ → ρ < σ → ¬ yinAccept yin maxTau ρ) → yin σ ≤ m) →
      yinSearchLoop yin maxTau tau m =
        (List.range' tau n).find? fun σ => decide (yinAccept yin maxTau σ) := by
  intro n
  induction n with
  | zero =>
    intro tau m hn _
    have htau : ¬ tau ≤ maxTau := by omega
    rw [yinSearchLoop, if_neg htau]
    rfl
  | succ k ih =>
    intro tau m hn hH
    have htau : tau ≤ maxTau := by omega
    rw [yinSearchLoop, if_pos htau, List.range'_succ]
    by_cases hQ : yinAccept yin maxTau tau
    · have hm : yin tau ≤ m := hH tau le_rfl hQ (fun ρ h1 h2 => absurd h2 (by omega))
      rw [if_pos ⟨hQ.1, hm, hQ.2.1, hQ.2.2⟩]
      rw [List.find?_cons_of_pos _ (by simpa [yinAccept] using hQ)]
    · have hcond : ¬ (yin tau < 0.15 ∧ yin tau ≤ m ∧ tau + 1 ≤ maxTau ∧
          yin tau ≤ yin (tau + 1)) := by
        rintro ⟨h1, _, h3, h4⟩
        exact hQ ⟨h1, h3, h4⟩
      rw [if_neg hcond]
      rw [List.find?_cons_of_neg _ (by simpa [yinAccept] using hQ)]
      apply ih _ _ (by omega)
      intro σ hσ hQσ hfirst
      have hfirst' : ∀ ρ, tau ≤ ρ → ρ < σ → ¬ yinAccept yin maxTau ρ := by
        intro ρ h1 h2
        rcases Nat.eq_or_lt_of_le h1 with rfl | h1'
        · exact hQ
        · exact hfirst ρ h1' h2
      have h1 : yin σ ≤ m := hH σ (by omega) hQσ hfirst'
      have h2 : yin σ ≤ yin tau :=
        yinAccept_first_le yin maxTau hQσ (σ - tau) tau (by omega) (by omega) hfirst'
      by_cases hup : yin tau < m
      · rw [if_pos hup]; exact h2
      · rw [if_neg hup]; exact h1

/-- The fallback scan of the source is `List.argmin` over the search range. -/
theorem yinGlobalMin_eq_argAux (yin : ℕ → ℝ) (maxTau : ℕ) :
    ∀ (n tau : ℕ) (acc : Option (ℝ × ℕ)), n = maxTau + 1 - tau →
      (acc = none ∨ ∃ i, acc = some (yin i, i)) →
      (yinGlobalMin yin maxTau tau acc).map Prod.snd =
        (List.range' tau n).foldl (List.argAux fun b c => yin b < yin c)
          (acc.map Prod.snd) := by
  intro n
  induction n with
  | zero =>
    intro tau acc hn _
    have htau : ¬ tau ≤ maxTau := by omega
    rw [yinGlobalMin.eq_def, if_neg htau]
    rfl
  | succ k ih =>
    intro tau acc hn hacc
    have htau : tau ≤ maxTau := by omega
    rw [yinGlobalMin.eq_def, if_pos htau, List.range'_succ, List.foldl_cons]
    rcases hacc with rfl | ⟨i, rfl⟩
    · exact ih (tau + 1) (some (yin tau, tau)) (by omega) (Or.inr ⟨tau, rfl⟩)
    · by_cases hlt : yin tau < yin i
      · simp only [List.argAux, Option.map_some', if_pos hlt]
        exact ih (tau + 1) (some (yin tau, tau)) (by omega) (Or.inr ⟨tau, rfl⟩)
      · simp only [List.argAux, Option.map_some', if_neg hlt]
        exact ih (tau + 1) (some (yin i, i)) (by omega) (Or.inr ⟨i, rfl⟩)

open Classical in
/-- **C5** — For every CMNDF array (as a function on lags) and search range,
the source's threshold search selects exactly the first τ scanning upward
from max(2, minTau) with `CMNDF[τ] < 0.15` and `CMNDF[τ] ≤ CMNDF[τ+1]`, and
falls back to the (first) global minimum of the CMNDF over the range when no
τ is accepted — the `val ≤ yinMin` conjunct carried by the source's loop is
provably redundant. -/
theorem yinSelectTau_eq_spec :
    ∀ (yin : ℕ → ℝ) (minTau maxTau : ℕ),
      (yinSelectTau yin minTau maxTau).map Prod.fst = yinSelectTauSpec yin minTau maxTau := by
  intro yin minTau maxTau
  have hfind := yinSearchLoop_eq_find? yin maxTau (maxTau + 1 - max 2 minTau) (max 2 minTau) 1
    rfl (fun σ _ hQ _ => by linarith [hQ.1])
  rw [yinSelectTau, yinSelectTauSpec, yinFirstThresholdTau, hfind]
  cases hs : (List.range' (max 2 minTau) (maxTau + 1 - max 2 minTau)).find?
      (fun σ => decide (yinAccept yin maxTau σ)) with
  | some tau => rfl
  | none =>
    have hglob := yinGlobalMin_eq_argAux yin maxTau (maxTau + 1 - max 2 minTau)
      (max 2 minTau) none rfl (Or.inl rfl)
    rcases hg : yinGlobalMin yin maxTau (max 2 minTau) none with _ | ⟨v, i⟩
    · rw [hg] at hglob
      simp only [Option.map_none'] at hglob
      rw [yinArgminTau, List.argmin]
      exact hglob
    · rw [hg] at hglob
      simp only [Option.map_some'] at hglob
      rw [yinArgminTau, List.argmin]
      exact hglob

/-! ## Facts about the wrapping loops -/

theorem wrapDown_le (c : ℝ) : wrapDown c ≤ 600 := by
  induction c using wrapDown.induct with
  | case1 c h ih => rw [wrapDown, dif_pos h]; exact ih
  | case2 c h => rw [wrapDown, dif_neg h]; exact le_of_not_lt h

theorem wrapDown_cases (c : ℝ) : wrapDown c = c ∨ (-600 : ℝ) < wrapDown c := by
  induction c using wrapDown.induct with
  | case1 c h ih =>
    rw [wrapDown, dif_pos h]
    rcases ih with h1 | h1
    · right; rw [h1]; linarith
    · right; exact h1
  | case2 c h => left; rw [wrapDown, dif_neg h]

theorem wrapDown_of_le {c : ℝ} (h : c ≤ 600) : wrapDown c = c := by
  rw [wrapDown, dif_neg (not_lt.mpr h)]

theorem wrapUp_ge (c : ℝ) : -600 ≤ wrapUp c := by
  induction c using wrapUp.induct with
  | case1 c h ih => rw [wrapUp, dif_pos h]; exact ih
  | case2 c h => rw [wrapUp, dif_neg h]; exact le_of_not_lt h

theorem wrapUp_le {c : ℝ} (h : c ≤ 600) : wrapUp c ≤ 600 := by
  induction c using wrapUp.induct with
  | case1 c h1 ih => rw [wrapUp, dif_pos h1]; exact ih (by linarith)
  | case2 c h1 => rw [wrapUp, dif_neg h1]; exact h

theorem wrapUp_of_ge {c : ℝ} (h : -600 ≤ c) : wrapUp c = c := by
  rw [wrapUp, dif_neg (not_lt.mpr h)]

theorem wrapCents_mem (c : ℝ) : wrapCents c ∈ Set.Icc (-600 : ℝ) 600 :=
  ⟨wrapUp_ge _, wrapUp_le (wrapDown_le c)⟩

/-- Adding a full octave is invisible to the wrap — except exactly at the
half-octave boundary `c = -600`, where the down-loop fixes `600` and the
up-loop fixes `-600`. -/
theorem wrapCents_add_octave {c : ℝ} (h : c ≠ -600) :
    wrapCents (c + 1200) = wrapCents c := by
  rcases lt_trichotomy c (-600) with hc | hc | hc
  · -- both down-loops are the identity; the up-loop steps from `c` to `c + 1200`
    unfold wrapCents
    rw [wrapDown_of_le (by linarith), wrapDown_of_le (by linarith)]
    conv_rhs => rw [wrapUp, dif_pos hc]
  · exact absurd hc h
  · -- the down-loop steps from `c + 1200` to `c`
    unfold wrapCents
    have : wrapDown (c + 1200) = wrapDown c := by
      rw [wrapDown, dif_pos (by linarith : c + 1200 > 600)]
      norm_num
    rw [this]

/-! ## C6: range and octave-invariance of `centsToNearestOctave` -/

/-- **C6 (amended)** — For all positive target and detected frequencies,
`centsToNearestOctave` returns a value in [-600, 600]; and the wrap is
invariant under adding 1200 cents for every cents value *except exactly*
`-600`: `wrap(-600) = -600` but `wrap(-600 + 1200) = 600`, so a deviation of
exactly half an octave below flips to `+600` when the detected frequency is
doubled. -/
theorem centsToNearestOctave_range_and_octave_invariance :
    (∀ targetHz detectedHz : ℝ, 0 < targetHz → 0 < detectedHz →
      centsToNearestOctave targetHz detectedHz ∈ Set.Icc (-600 : ℝ) 600) ∧
    (∀ c : ℝ, c ≠ -600 → wrapCents (c + 1200) = wrapCents c) := by
  constructor
  · intro t d ht hd
    rw [centsToNearestOctave, if_neg (by push_neg; exact ⟨ht, hd⟩)]
    exact wrapCents_mem _
  · intro c hc
    exact wrapCents_add_octave hc

/-- Witness for `centsToNearestOctave_range_and_octave_invariance` at
target = detected = 440 Hz and at cents = 0. -/
theorem centsToNearestOctave_range_witness :
    (0 : ℝ) < 440 ∧ ((0 : ℝ) ≠ -600) ∧
      centsToNearestOctave 440 440 ∈ Set.Icc (-600 : ℝ) 600 ∧
      wrapCents (0 + 1200) = wrapCents 0 :=
  ⟨by norm_num, by norm_num,
    centsToNearestOctave_range_and_octave_invariance.1 440 440 (by norm_num) (by norm_num),
    centsToNearestOctave_range_and_octave_invariance.2 0 (by norm_num)⟩

/-- **C6 counterexample** — with target √2 Hz, a detected frequency of 1 Hz is
exactly 600 cents flat (wrapped to −600); doubling the detected frequency to
2 Hz yields +600, not −600: `wrap(cents + 1200) ≠ wrap(cents)` at this input. -/
theorem centsToNearestOctave_octave_counterexample :
    centsToNearestOctave (Real.sqrt 2) 1 = -600 ∧
      centsToNearestOctave (Real.sqrt 2) (2 * 1) = 600 ∧
      centsToNearestOctave (Real.sqrt 2) (2 * 1) ≠ centsToNearestOctave (Real.sqrt 2) 1 := by
  have hs : (0 : ℝ) < Real.sqrt 2 := Real.sqrt_pos.mpr (by norm_num)
  have hlog : Real.logb 2 (Real.sqrt 2) = 1 / 2 := by
    rw [show Real.sqrt 2 = (2 : ℝ) ^ ((1 : ℝ) / 2) from Real.sqrt_eq_rpow 2]
    exact Real.logb_rpow (show (0 : ℝ) < 2 by norm_num) (show (2 : ℝ) ≠ 1 by norm_num)
  have h1 : centsToNearestOctave (Real.sqrt 2) 1 = -600 := by
    rw [centsToNearestOctave, if_neg (by push_neg; exact ⟨hs, by norm_num⟩)]
    have : Real.logb 2 (1 / Real.sqrt 2) = -(1 / 2) := by
      rw [one_div, Real.logb_inv, hlog]
    rw [this]
    norm_num
    unfold wrapCents
    rw [wrapDown_of_le (by norm_num), wrapUp_of_ge (by norm_num)]
  have h2 : centsToNearestOctave (Real.sqrt 2) (2 * 1) = 600 := by
    rw [centsToNearestOctave, if_neg (by push_neg; exact ⟨hs, by norm_num⟩)]
    have : Real.logb 2 (2 * 1 / Real.sqrt 2) = 1 / 2 := by
      rw [mul_one, Real.logb_div (by norm_num) (ne_of_gt hs), hlog]
      rw [Real.logb_self_eq_one (by norm_num)]
      norm_num
    rw [this]
    norm_num
    unfold wrapCents
    rw [wrapDown_of_le (by norm_num), wrapUp_of_ge (by norm_num)]
  exact ⟨h1, h2, by rw [h1, h2]; norm_num⟩

/-! ## C8: the accuracy score -/

/-- **C8** — For every deviation value, the accuracy score equals
`max(0, 1 - |deviation|/1200)`, lies in [0,1], equals 1 iff the deviation is
0, and equals 0 iff |deviation| ≥ 1200. -/
theorem accuracyScore_spec :
    ∀ d : ℝ, accuracyScore d = max 0 (1 - |d| / 1200) ∧
      accuracyScore d ∈ Set.Icc (0 : ℝ) 1 ∧
      (accuracyScore d = 1 ↔ d = 0) ∧
      (accuracyScore d = 0 ↔ 1200 ≤ |d|) := by
  intro d
  have habs : (0 : ℝ) ≤ |d| := abs_nonneg d
  refine ⟨rfl, ⟨le_max_left _ _, ?_⟩, ?_, ?_⟩
  · rw [accuracyScore, max_le_iff]
    constructor
    · norm_num
    · have : (0 : ℝ) ≤ |d| / 1200 := by positivity
      linarith
  · rw [accuracyScore]
    constructor
    · intro h
      rcases max_eq_iff.mp h with ⟨h0, _⟩ | ⟨h1, _⟩
      · norm_num at h0
      · have h2 : |d| / 1200 = 0 := by linarith
        field_simp at h2
        exact h2
    · intro h
      rw [h]
      norm_num
  · rw [accuracyScore]
    constructor
    · intro h
      rcases max_eq_iff.mp h with ⟨_, hle⟩ | ⟨h1, _⟩
      · have : (1 : ℝ) ≤ |d| / 1200 := by linarith
        calc (1200 : ℝ) = 1200 * 1 := by norm_num
        _ ≤ 1200 * (|d| / 1200) := by linarith
        _ = |d| := by field_simp
      · have : (1 : ℝ) ≤ |d| / 1200 := by linarith
        calc (1200 : ℝ) = 1200 * 1 := by norm_num
        _ ≤ 1200 * (|d| / 1200) := by linarith
        _ = |d| := by field_simp
    · intro h
      have : (1 : ℝ) ≤ |d| / 1200 := by
        rw [le_div_iff₀ (by norm_num : (0:ℝ) < 1200)]
        linarith
      exact max_eq_left (by linarith)

/-! ## C7: the on-pitch decision -/

/-- **C7** — For every deviation and pair of (nonnegative, as MIDI pitches
are) pitch numbers, the on-pitch decision is true iff |deviation| ≤ 50 cents
or the two pitches are octave-equivalent, i.e. congruent mod 12. -/
theorem isOnPitchDecision_spec :
    ∀ (dev : ℝ) (p1 p2 : ℤ), 0 ≤ p1 → 0 ≤ p2 →
      (isOnPitchDecision dev p1 p2 = true ↔ (|dev| ≤ 50 ∨ p1 % 12 = p2 % 12)) := by
  intro dev p1 p2 h1 h2
  rw [isOnPitchDecision, isOctaveEquivalent]
  rw [Bool.or_eq_true, decide_eq_true_eq, beq_iff_eq]
  rw [Int.tmod_eq_emod h1 (by norm_num), Int.tmod_eq_emod h2 (by norm_num)]

/-- Witness for `isOnPitchDecision_spec`: deviation 100 cents between octave
MIDI pitches 60 and 72 is classified on-pitch via octave equivalence. -/
theorem isOnPitchDecision_witness :
    (0 : ℤ) ≤ 60 ∧ (0 : ℤ) ≤ 72 ∧
      (isOnPitchDecision 100 60 72 = true ↔ (|(100 : ℝ)| ≤ 50 ∨ (60 : ℤ) % 12 = 72 % 12)) :=
  ⟨by norm_num, by norm_num, isOnPitchDecision_spec 100 60 72 (by norm_num) (by norm_num)⟩

/-! ## Target Note Tracker (ResultsDisplay.tsx lines 269–283)

```js
let idx = idxRef.current;
while (idx < notes.length && t > notes[idx].time + notes[idx].duration) idx++;
while (idx > 0 && t < notes[idx].time) idx--;
idxRef.current = idx;
const candidate = idx < notes.length ? notes[idx] : null;
const inNote = candidate && t >= candidate.time && t <= candidate.time + candidate.duration;
const targetNote = inNote ? transposeNote(candidate, transpositionSemitones) : null;
```
-/

/-- The advance loop:
`while (idx < notes.length && t > notes[idx].time + notes[idx].duration) idx++`.
The `&&` short-circuits, so the read is always in bounds here. -/
def advanceCursor (notes : List Note) (t : ℚ) (idx : ℕ) : ℕ :=
  match h : notes.get? idx with
  | some n => if t > n.time + n.duration then advanceCursor notes t (idx + 1) else idx
  | none => idx
termination_by notes.length - idx
decreasing_by
  have hlt : idx < notes.length := by
    rcases List.get?_eq_some.mp h with ⟨h1, _⟩
    exact h1
  omega

/-- The retreat loop: `while (idx > 0 && t < notes[idx].time) idx--`.
When `idx > 0`, JavaScript reads `notes[idx].time` with no bound check
against the array length; if `idx` is past the end (which the advance loop
produces whenever `t` lies beyond the end of the last note) the member
access on `undefined` throws a `TypeError`.  The thrown exception is
modelled as `.error idx`, carrying the out-of-bounds index that was read. -/
def retreatCursor (notes : List Note) (t : ℚ) : ℕ → Except ℕ ℕ
  | 0 => .ok 0
  | idx + 1 =>
    match notes.get? (idx + 1) with
    | some n => if t < n.time then retreatCursor notes t idx else .ok (idx + 1)
    | none => .error (idx + 1)

/-- One cursor update of the tracker: advance loop then retreat loop. -/
def resolveCursor (notes : List Note) (t : ℚ) (idx : ℕ) : Except ℕ ℕ :=
  retreatCursor notes t (advanceCursor notes t idx)

/-- Cursor update plus candidate/target selection: the note at the final
cursor is the candidate (`null` past the end), and it is the active target
only when `t` lies within `[time, time + duration]`.  The returned note is
the *untransposed* candidate; the tick applies `transposeNote` to it. -/
def activeCandidate (notes : List Note) (t : ℚ) (idx : ℕ) : Except ℕ (ℕ × Option Note) :=
  match resolveCursor notes t idx with
  | .error i => .error i
  | .ok i =>
    .ok (i, match notes.get? i with
      | some n => if n.time ≤ t ∧ t ≤ n.time + n.duration then some n else none
      | none => none)

/-- The id of the active target reported by one tracker tick (`.error i` when
the tick dies on the out-of-bounds read of index `i`). -/
def activeCandidateId (notes : List Note) (t : ℚ) (idx : ℕ) : Except ℕ (Option String) :=
  (activeCandidate notes t idx).map (fun p => p.2.map Note.id)

theorem advanceCursor_step (notes : List Note) (t : ℚ) (idx : ℕ) (n : Note)
    (h : notes.get? idx = some n) (h2 : t > n.time + n.duration) :
    advanceCursor notes t idx = advanceCursor notes t (idx + 1) := by
  rw [advanceCursor]
  split
  · rename_i n' heq
    rw [h] at heq
    cases heq
    rw [if_pos h2]
  · rename_i heq
    rw [h] at heq
    cases heq

theorem advanceCursor_stop (notes : List Note) (t : ℚ) (idx : ℕ) (n : Note)
    (h : notes.get? idx = some n) (h2 : ¬ t > n.time + n.duration) :
    advanceCursor notes t idx = idx := by
  rw [advanceCursor]
  split
  · rename_i n' heq
    rw [h] at heq
    cases heq
    rw [if_neg h2]
  · rfl

theorem advanceCursor_none (notes : List Note) (t : ℚ) (idx : ℕ)
    (h : notes.get? idx = none) : advanceCursor notes t idx = idx := by
  rw [advanceCursor]
  split
  · rename_i n' heq
    rw [h] at heq
    cases heq
  · rfl

/-- The note `{id:"a", start:0, dur:1}` of the claims' example (pitch,
frequency and name are incidental song data, unread by the tracker). -/
def noteA : Note := ⟨"a", 0, 1, 69, 440, "A"⟩

/-- The note `{id:"b", start:1, dur:1}` of the claims' example. -/
def noteB : Note := ⟨"b", 1, 1, 71, 493, "B"⟩

/-- **C1** — On the example notes, a tracker tick from cursor 0 at `t = 0.5`
reports active target "a" and at `t = 1.5` reports "b", as the claim states;
but at `t = 2.5` the tick does not complete with "no active target": the
advance loop ends with `idx = 2 = notes.length` and the retreat-loop
condition then reads the out-of-bounds entry `notes[2]`, throwing a
`TypeError` that the tick's `catch` swallows, so the tick produces no result
at all. -/
theorem tracker_example_and_oob :
    activeCandidateId [noteA, noteB] (1/2) 0 = .ok (some "a") ∧
      activeCandidateId [noteA, noteB] (3/2) 0 = .ok (some "b") ∧
      activeCandidateId [noteA, noteB] (5/2) 0 = .error 2 := by
  have ha1 : advanceCursor [noteA, noteB] (1/2) 0 = 0 :=
    advanceCursor_stop [noteA, noteB] (1/2) 0 noteA rfl (by norm_num [noteA])
  have ha2 : advanceCursor [noteA, noteB] (3/2) 0 = 1 := by
    rw [advanceCursor_step [noteA, noteB] (3/2) 0 noteA rfl (by norm_num [noteA])]
    exact advanceCursor_stop [noteA, noteB] (3/2) 1 noteB rfl (by norm_num [noteB])
  have ha3 : advanceCursor [noteA, noteB] (5/2) 0 = 2 := by
    rw [advanceCursor_step [noteA, noteB] (5/2) 0 noteA rfl (by norm_num [noteA])]
    rw [advanceCursor_step [noteA, noteB] (5/2) 1 noteB rfl (by norm_num [noteB])]
    exact advanceCursor_none [noteA, noteB] (5/2) 2 rfl
  refine ⟨?_, ?_, ?_⟩ <;>
    rw [activeCandidateId, activeCandidate, resolveCursor]
  · rw [ha1]
    norm_num [retreatCursor, noteA]
    rfl
  · rw [ha2]
    rw [show retreatCursor [noteA, noteB] (3/2) 1 = .ok 1 by
      rw [retreatCursor]
      norm_num [noteA, noteB]]
    norm_num [noteB]
    rfl
  · rw [ha3]
    rfl

/-! ## The analysis tick (ResultsDisplay.tsx lines 261–365)

One iteration of the `setInterval` callback of `startAnalysis`.  The mutable
refs read and written by the callback form the state; the callback's other
inputs (the `Date.now()` timestamp, the playback clock `currentTimeRef`, and
the detector's result) form the per-tick input.  Everything observable the
tick does (note-hit events, the throttled UI snapshot, history pushes and
flushes) is recorded in a `TickObs`. -/

/-- The fields of a `PitchDetectionResult` the tick logic reads. -/
structure PitchRes where
  frequency : ℝ
  pitch : ℤ

/-- A `VoiceHistory` point: `{ time: t, pitch: pitchResult.pitch, isOnPitch }`. -/
structure HistoryPoint where
  time : ℚ
  pitch : ℤ
  isOnPitch : Bool

/-- The mutable refs of `MicrophoneAnalyzer` touched by one tick:
`currentNoteIndexRef`, `lastHitNoteIdRef`, `lastUIUpdateTsRef`,
`lastHistoryFlushTsRef`, `historyBufferRef`. -/
structure TickState where
  cursor : ℕ
  lastHit : Option String
  lastUI : ℤ
  lastFlush : ℤ
  buffer : List HistoryPoint

/-- Per-tick inputs: the `Date.now()` timestamp, the playback time, and the
detector's pitch result (if any). -/
structure TickInput where
  now : ℤ
  t : ℚ
  pitch : Option PitchRes

/-- The `VoiceAnalysis` record built by the tick. -/
structure VoiceAnalysis where
  currentPitch : Option PitchRes
  targetNote : Option Note
  accuracy : ℝ
  deviation : ℝ
  isOnPitch : Bool
  octaveAdjusted : Bool

/-- Everything observable one tick does. -/
structure TickObs where
  now : ℤ
  activeId : Option String
  onPitch : Bool
  hit : Option String
  uiEmit : Option VoiceAnalysis
  pushed : List HistoryPoint
  flushed : Bool
  batch : List HistoryPoint

/-- The throttle constants `UI_UPDATE_MS` and `HISTORY_FLUSH_MS`. -/
def UI_UPDATE_MS : ℤ := 66

/-- `HISTORY_FLUSH_MS = 100`. -/
def HISTORY_FLUSH_MS : ℤ := 100

open Classical in
/-- One analysis tick.  On the out-of-bounds read of the retreat loop the
thrown `TypeError` lands in the tick's `catch`: no ref was written before the
throw, so the state is unchanged and nothing is emitted.  The `isFinite`
guards on `pitchResult.frequency`, `pitchResult.pitch` and `t` are vacuous
over `ℝ`/`ℚ`/`ℤ` and noted here. -/
noncomputable def analysisTick (notes : List Note) (semitones : ℤ)
    (s : TickState) (inp : TickInput) : TickState × TickObs :=
  match activeCandidate notes inp.t s.cursor with
  | .error _ =>
    (s, { now := inp.now, activeId := none, onPitch := false, hit := none,
          uiEmit := none, pushed := [], flushed := false, batch := [] })
  | .ok (idx, candidate) =>
    let targetNote : Option Note := candidate.map (fun n => transposeNote n semitones)
    match inp.pitch with
    | some pr =>
      -- `pitchResult && isFinite(frequency) && isFinite(pitch)` branch
      let step : VoiceAnalysis × Option String × Option String :=
        match targetNote with
        | some tn =>
          let deviation := centsToNearestOctave tn.frequency pr.frequency
          let octaveAdjusted := isOctaveEquivalent tn.pitch pr.pitch
          let isOnPitch : Bool := decide (|deviation| ≤ 50) || octaveAdjusted
          let accuracy := accuracyScore deviation
          let analysis : VoiceAnalysis :=
            { currentPitch := some pr, targetNote := targetNote,
              accuracy := accuracy, deviation := deviation,
              isOnPitch := isOnPitch, octaveAdjusted := octaveAdjusted }
          -- guarded note hit: only once per note id
          if isOnPitch ∧ tn.id ≠ "" ∧ s.lastHit ≠ some tn.id then
            (analysis, some tn.id, some tn.id)
          else
            (analysis, s.lastHit, none)
        | none =>
          -- outside any note: reset the last-hit guard
          ({ currentPitch := some pr, targetNote := none, accuracy := 0,
             deviation := 0, isOnPitch := false, octaveAdjusted := false },
            none, none)
      let analysis := step.1
      -- throttle UI updates to ~15 Hz
      let uiPair : ℤ × Option VoiceAnalysis :=
        if inp.now - s.lastUI ≥ UI_UPDATE_MS then (inp.now, some analysis)
        else (s.lastUI, none)
      -- buffer history and flush at 10 Hz
      let pt : HistoryPoint := { time := inp.t, pitch := pr.pitch, isOnPitch := analysis.isOnPitch }
      let buf1 := s.buffer ++ [pt]
      let flushQuad : ℤ × Bool × List HistoryPoint × List HistoryPoint :=
        if inp.now - s.lastFlush ≥ HISTORY_FLUSH_MS then
          (inp.now, true, if buf1.isEmpty then ([], buf1) else (buf1, []))
        else
          (s.lastFlush, false, [], buf1)
      ({ cursor := idx, lastHit := step.2.1, lastUI := uiPair.1,
         lastFlush := flushQuad.1, buffer := flushQuad.2.2.2 },
       { now := inp.now, activeId := targetNote.map Note.id,
         onPitch := analysis.isOnPitch, hit := step.2.2, uiEmit := uiPair.2,
         pushed := [pt], flushed := flushQuad.2.1, batch := flushQuad.2.2.1 })
    | none =>
      -- no pitch detected: sparse UI clears only (guard and history untouched)
      let uiPair : ℤ × Option VoiceAnalysis :=
        if inp.now - s.lastUI ≥ UI_UPDATE_MS then
          (inp.now, some { currentPitch := none, targetNote := none, accuracy := 0,
                           deviation := 0, isOnPitch := false, octaveAdjusted := false })
        else (s.lastUI, none)
      ({ cursor := idx, lastHit := s.lastHit, lastUI := uiPair.1,
         lastFlush := s.lastFlush, buffer := s.buffer },
       { now := inp.now, activeId := targetNote.map Note.id, onPitch := false,
         hit := none, uiEmit := uiPair.2, pushed := [], flushed := false,
         batch := [] })

/-- A run of consecutive analysis ticks, returning the final state and the
per-tick observations in order. -/
noncomputable def runTicks (notes : List Note) (semitones : ℤ) :
    TickState → List TickInput → TickState × List TickObs
  | s, [] => (s, [])
  | s, inp :: rest =>
    let step := analysisTick notes semitones s inp
    let next := runTicks notes semitones step.1 rest
    (next.1, step.2 :: next.2)

/-- The initial ref values of `MicrophoneAnalyzer` (also restored by
`releaseMicrophone`). -/
def initState : TickState :=
  { cursor := 0, lastHit := none, lastUI := 0, lastFlush := 0, buffer := [] }

theorem runTicks_cons (notes : List Note) (semitones : ℤ) (s : TickState)
    (inp : TickInput) (rest : List TickInput) :
    runTicks notes semitones s (inp :: rest) =
      ((runTicks notes semitones (analysisTick notes semitones s inp).1 rest).1,
        (analysisTick notes semitones s inp).2 ::
          (runTicks notes semitones (analysisTick notes semitones s inp).1 rest).2) := rfl

/-! ### Single-tick facts used by the scheduler and arbiter claims -/

theorem analysisTick_ui (notes : List Note) (semitones : ℤ) (s : TickState) (inp : TickInput) :
    ((analysisTick notes semitones s inp).2.uiEmit.isSome = true ∧
      s.lastUI + UI_UPDATE_MS ≤ inp.now ∧
      (analysisTick notes semitones s inp).1.lastUI = inp.now) ∨
    ((analysisTick notes semitones s inp).2.uiEmit = none ∧
      (analysisTick notes semitones s inp).1.lastUI = s.lastUI) := by
  cases hac : activeCandidate notes inp.t s.cursor with
  | error i => right; simp [analysisTick, hac]
  | ok p =>
    obtain ⟨idx, candidate⟩ := p
    by_cases hui : UI_UPDATE_MS ≤ inp.now - s.lastUI
    · left
      refine ⟨?_, by omega, ?_⟩ <;>
        cases hp : inp.pitch <;>
          simp [analysisTick, hac, hp, ge_iff_le, hui]
    · right
      constructor <;>
        cases hp : inp.pitch <;>
          simp [analysisTick, hac, hp, ge_iff_le, hui]

theorem analysisTick_flush (notes : List Note) (semitones : ℤ) (s : TickState) (inp : TickInput) :
    ((analysisTick notes semitones s inp).2.flushed = true ∧
      s.lastFlush + HISTORY_FLUSH_MS ≤ inp.now ∧
      (analysisTick notes semitones s inp).1.lastFlush = inp.now) ∨
    ((analysisTick notes semitones s inp).2.flushed = false ∧
      (analysisTick notes semitones s inp).1.lastFlush = s.lastFlush) := by
  cases hac : activeCandidate notes inp.t s.cursor with
  | error i => right; simp [analysisTick, hac]
  | ok p =>
    obtain ⟨idx, candidate⟩ := p
    cases hp : inp.pitch with
    | none => right; constructor <;> simp [analysisTick, hac, hp]
    | some pr =>
      by_cases hfl : HISTORY_FLUSH_MS ≤ inp.now - s.lastFlush
      · left
        refine ⟨?_, by omega, ?_⟩ <;> simp [analysisTick, hac, hp, ge_iff_le, hfl]
      · right
        constructor <;> simp [analysisTick, hac, hp, ge_iff_le, hfl]

/-- Conservation: what a tick emits plus what stays buffered is exactly what
was buffered before plus what the tick pushed, in order. -/
theorem analysisTick_content (notes : List Note) (semitones : ℤ) (s : TickState) (inp : TickInput) :
    (analysisTick notes semitones s inp).2.batch ++ (analysisTick notes semitones s inp).1.buffer =
      s.buffer ++ (analysisTick notes semitones s inp).2.pushed := by
  cases hac : activeCandidate notes inp.t s.cursor with
  | error i => simp [analysisTick, hac]
  | ok p =>
    obtain ⟨idx, candidate⟩ := p
    cases hp : inp.pitch with
    | none => simp [analysisTick, hac, hp]
    | some pr =>
      by_cases hfl : HISTORY_FLUSH_MS ≤ inp.now - s.lastFlush
      · simp only [analysisTick, hac, hp, ge_iff_le]
        rw [if_pos hfl]
        split <;> simp_all
      · simp only [analysisTick, hac, hp, ge_iff_le]
        rw [if_neg hfl]
        simp

/-- A tick that emits a history batch leaves the buffer empty. -/
theorem analysisTick_flush_empties (notes : List Note) (semitones : ℤ) (s : TickState) (inp : TickInput) :
    (analysisTick notes semitones s inp).1.buffer = [] ∨
      (analysisTick notes semitones s inp).2.batch = [] := by
  cases hac : activeCandidate notes inp.t s.cursor with
  | error i => right; simp [analysisTick, hac]
  | ok p =>
    obtain ⟨idx, candidate⟩ := p
    cases hp : inp.pitch with
    | none => right; simp [analysisTick, hac, hp]
    | some pr =>
      by_cases hfl : HISTORY_FLUSH_MS ≤ inp.now - s.lastFlush
      · simp only [analysisTick, hac, hp, ge_iff_le]
        rw [if_pos hfl]
        split
        · right; simp_all
        · left; simp_all
      · right
        simp only [analysisTick, hac, hp, ge_iff_le]
        rw [if_neg hfl]

/-- Case analysis of one tick whose tracker reports active target id `i`:
either it emits the hit for `i` (setting the guard to `i`), which happens
exactly when the tick is on-pitch, the id is nonempty, and the guard did not
already hold `i`; or it emits no hit and leaves the guard unchanged. -/
theorem analysisTick_active_cases (notes : List Note) (semitones : ℤ)
    (s : TickState) (inp : TickInput) (i : String)
    (h : (analysisTick notes semitones s inp).2.activeId = some i) :
    ((analysisTick notes semitones s inp).2.hit = some i ∧
      (analysisTick notes semitones s inp).1.lastHit = some i ∧
      (analysisTick notes semitones s inp).2.onPitch = true ∧ i ≠ "" ∧
      s.lastHit ≠ some i) ∨
    ((analysisTick notes semitones s inp).2.hit = none ∧
      (analysisTick notes semitones s inp).1.lastHit = s.lastHit ∧
      ¬((analysisTick notes semitones s inp).2.onPitch = true ∧ i ≠ "" ∧
        s.lastHit ≠ some i)) := by
  cases hac : activeCandidate notes inp.t s.cursor with
  | error j => right; simp [analysisTick, hac] at h ⊢
  | ok p =>
    obtain ⟨idx, candidate⟩ := p
    cases hcand : candidate with
    | none =>
      right
      subst hcand
      cases hp : inp.pitch <;> simp [analysisTick, hac, hp] at h ⊢
    | some n =>
      subst hcand
      cases hp : inp.pitch with
      | none => right; simp [analysisTick, hac, hp] at h ⊢
      | some pr =>
        have hid : n.id = i := by
          simpa [analysisTick, hac, hp] using h
        subst hid
        simp only [analysisTick, hac, hp, Option.map_some', transposeNote_id]
        split
        · rename_i hcond
          left
          refine ⟨by simp, by simp, ?_, hcond.2.1, hcond.2.2⟩
          simpa using hcond.1
        · rename_i hcond
          right
          refine ⟨by simp, by simp, ?_⟩
          simpa using hcond

theorem analysisTick_now (notes : List Note) (semitones : ℤ) (s : TickState) (inp : TickInput) :
    (analysisTick notes semitones s inp).2.now = inp.now := by
  cases hac : activeCandidate notes inp.t s.cursor with
  | error i => simp [analysisTick, hac]
  | ok p =>
    obtain ⟨idx, candidate⟩ := p
    cases hp : inp.pitch <;> simp [analysisTick, hac, hp]

/-- Timestamps of the ticks that emitted a live UI snapshot. -/
def uiTimes (os : List TickObs) : List ℤ :=
  (os.filter fun o => o.uiEmit.isSome).map TickObs.now

/-- Timestamps of the ticks on which the history-flush window fired. -/
def flushTimes (os : List TickObs) : List ℤ :=
  (os.filter fun o => o.flushed).map TickObs.now

theorem run_ui_chain (notes : List Note) (semitones : ℤ) (L : List TickInput) :
    ∀ s : TickState, List.Chain' (fun a b => a + UI_UPDATE_MS ≤ b)
      (s.lastUI :: uiTimes (runTicks notes semitones s L).2) := by
  induction L with
  | nil => intro s; simp [runTicks, uiTimes]
  | cons inp rest ih =>
    intro s
    rw [runTicks_cons]
    have hnow := analysisTick_now notes semitones s inp
    rcases analysisTick_ui notes semitones s inp with ⟨h1, h2, h3⟩ | ⟨h1, h2⟩
    · have heq : uiTimes ((analysisTick notes semitones s inp).2 ::
          (runTicks notes semitones (analysisTick notes semitones s inp).1 rest).2) =
          inp.now :: uiTimes (runTicks notes semitones (analysisTick notes semitones s inp).1 rest).2 := by
        simp [uiTimes, List.filter_cons, h1, hnow]
      rw [heq, List.chain'_cons]
      refine ⟨h2, ?_⟩
      have := ih (analysisTick notes semitones s inp).1
      rwa [h3] at this
    · have heq : uiTimes ((analysisTick notes semitones s inp).2 ::
          (runTicks notes semitones (analysisTick notes semitones s inp).1 rest).2) =
          uiTimes (runTicks notes semitones (analysisTick notes semitones s inp).1 rest).2 := by
        simp [uiTimes, List.filter_cons, h1]
      rw [heq]
      have := ih (analysisTick notes semitones s inp).1
      rwa [h2] at this

theorem run_flush_chain (notes : List Note) (semitones : ℤ) (L : List TickInput) :
    ∀ s : TickState, List.Chain' (fun a b => a + HISTORY_FLUSH_MS ≤ b)
      (s.lastFlush :: flushTimes (runTicks notes semitones s L).2) := by
  induction L with
  | nil => intro s; simp [runTicks, flushTimes]
  | cons inp rest ih =>
    intro s
    rw [runTicks_cons]
    have hnow := analysisTick_now notes semitones s inp
    rcases analysisTick_flush notes semitones s inp with ⟨h1, h2, h3⟩ | ⟨h1, h2⟩
    · have heq : flushTimes ((analysisTick notes semitones s inp).2 ::
          (runTicks notes semitones (analysisTick notes semitones s inp).1 rest).2) =
          inp.now :: flushTimes (runTicks notes semitones (analysisTick notes semitones s inp).1 rest).2 := by
        simp [flushTimes, List.filter_cons, h1, hnow]
      rw [heq, List.chain'_cons]
      refine ⟨h2, ?_⟩
      have := ih (analysisTick notes semitones s inp).1
      rwa [h3] at this
    · have heq : flushTimes ((analysisTick notes semitones s inp).2 ::
          (runTicks notes semitones (analysisTick notes semitones s inp).1 rest).2) =
          flushTimes (runTicks notes semitones (analysisTick notes semitones s inp).1 rest).2 := by
        simp [flushTimes, List.filter_cons, h1]
      rw [heq]
      have := ih (analysisTick notes semitones s inp).1
      rwa [h2] at this

theorem run_content (notes : List Note) (semitones : ℤ) (L : List TickInput) :
    ∀ s : TickState,
      ((runTicks notes semitones s L).2.map TickObs.batch).flatten ++
          (runTicks notes semitones s L).1.buffer =
        s.buffer ++ ((runTicks notes semitones s L).2.map TickObs.pushed).flatten := by
  induction L with
  | nil => intro s; simp [runTicks]
  | cons inp rest ih =>
    intro s
    rw [runTicks_cons]
    simp only [List.map_cons, List.flatten_cons]
    have hc := analysisTick_content notes semitones s inp
    have ht := ih (analysisTick notes semitones s inp).1
    rw [List.append_assoc, ht, ← List.append_assoc, hc, List.append_assoc]

/-- **C9** — The update scheduler's output discipline: successive live UI
snapshots are ≥ 66 ms apart and successive history flushes are ≥ 100 ms
apart on the tick clock; across any run from the initial refs, the flushed
batches concatenate, in order, to exactly the points pushed (with the
still-unflushed tail remaining in the buffer); per tick, what is emitted
plus what stays buffered equals what was buffered plus what was pushed,
and a tick that emits a batch leaves the buffer empty. -/
theorem updateScheduler_spec :
    (∀ (notes : List Note) (semitones : ℤ) (L : List TickInput),
      List.Chain' (fun a b => a + UI_UPDATE_MS ≤ b)
        (uiTimes (runTicks notes semitones initState L).2)) ∧
    (∀ (notes : List Note) (semitones : ℤ) (L : List TickInput),
      List.Chain' (fun a b => a + HISTORY_FLUSH_MS ≤ b)
        (flushTimes (runTicks notes semitones initState L).2)) ∧
    (∀ (notes : List Note) (semitones : ℤ) (L : List TickInput),
      ((runTicks notes semitones initState L).2.map TickObs.batch).flatten ++
          (runTicks notes semitones initState L).1.buffer =
        ((runTicks notes semitones initState L).2.map TickObs.pushed).flatten) ∧
    (∀ (notes : List Note) (semitones : ℤ) (s : TickState) (inp : TickInput),
      (analysisTick notes semitones s inp).2.batch ++
          (analysisTick notes semitones s inp).1.buffer =
        s.buffer ++ (analysisTick notes semitones s inp).2.pushed) ∧
    (∀ (notes : List Note) (semitones : ℤ) (s : TickState) (inp : TickInput),
      (analysisTick notes semitones s inp).1.buffer = [] ∨
        (analysisTick notes semitones s inp).2.batch = []) := by
  refine ⟨?_, ?_, ?_, analysisTick_content, analysisTick_flush_empties⟩
  · intro notes semitones L
    exact (run_ui_chain notes semitones L initState).tail
  · intro notes semitones L
    exact (run_flush_chain notes semitones L initState).tail
  · intro notes semitones L
    have := run_content notes semitones L initState
    simpa [initState] using this

/-- **C2 (amended)** — The note-hit guard is cleared on every tick in which a
pitch was detected *and* the tracker reports no active target; on ticks where
no pitch was detected the guard is left unchanged, even if no target is
active (the clearing branch lives inside the pitch-detected branch of the
tick). -/
theorem noTarget_guard_spec :
    (∀ (notes : List Note) (semitones : ℤ) (s : TickState) (inp : TickInput)
        (pr : PitchRes) (idx : ℕ),
      inp.pitch = some pr →
      activeCandidate notes inp.t s.cursor = .ok (idx, none) →
      (analysisTick notes semitones s inp).1.lastHit = none) ∧
    (∀ (notes : List Note) (semitones : ℤ) (s : TickState) (inp : TickInput),
      inp.pitch = none →
      (analysisTick notes semitones s inp).1.lastHit = s.lastHit) := by
  constructor
  · intro notes semitones s inp pr idx hp hac
    simp [analysisTick, hac, hp]
  · intro notes semitones s inp hp
    cases hac : activeCandidate notes inp.t s.cursor with
    | error i => simp [analysisTick, hac]
    | ok p =>
      obtain ⟨idx, c⟩ := p
      simp [analysisTick, hac, hp]

/-- Witness for `noTarget_guard_spec`: a pitch-detected tick with an empty
note list (hence no active target) clears a previously set guard. -/
theorem noTarget_guard_witness :
    ((⟨0, 0, some ⟨440, 69⟩⟩ : TickInput).pitch = some (⟨440, 69⟩ : PitchRes)) ∧
      activeCandidate [] ((⟨0, 0, some ⟨440, 69⟩⟩ : TickInput).t)
        ((⟨0, some "a", 0, 0, []⟩ : TickState).cursor) = .ok (0, none) ∧
      (analysisTick [] 0 ⟨0, some "a", 0, 0, []⟩ ⟨0, 0, some ⟨440, 69⟩⟩).1.lastHit = none := by
  have hac : activeCandidate [] (0 : ℚ) 0 = .ok (0, none) := by
    rw [activeCandidate, resolveCursor, advanceCursor_none [] 0 0 rfl]
    rfl
  exact ⟨rfl, hac,
    noTarget_guard_spec.1 [] 0 ⟨0, some "a", 0, 0, []⟩ ⟨0, 0, some ⟨440, 69⟩⟩ ⟨440, 69⟩ 0 rfl hac⟩

/-- Number of hit events for note id `i` in a trace. -/
def hitCount (i : String) (os : List TickObs) : ℕ :=
  (os.filter fun o => o.hit == some i).length

theorem hitCount_nil (i : String) : hitCount i [] = 0 := rfl

theorem hitCount_cons_hit {i : String} {o : TickObs} (os : List TickObs)
    (h : o.hit = some i) : hitCount i (o :: os) = hitCount i os + 1 := by
  simp [hitCount, List.filter_cons, h]

theorem hitCount_cons_none {i : String} {o : TickObs} (os : List TickObs)
    (h : o.hit = none) : hitCount i (o :: os) = hitCount i os := by
  simp [hitCount, List.filter_cons, h]

/-- While the guard already holds `i`, a run whose active target is always
`i` emits no further hit for `i` and keeps the guard at `i`. -/
theorem run_no_hit_of_guard (notes : List Note) (semitones : ℤ) (i : String)
    (L : List TickInput) :
    ∀ s : TickState, s.lastHit = some i →
      (∀ o ∈ (runTicks notes semitones s L).2, o.activeId = some i) →
      hitCount i (runTicks notes semitones s L).2 = 0 := by
  induction L with
  | nil => intro s _ _; rfl
  | cons inp rest ih =>
    intro s hg hall
    rw [runTicks_cons] at hall ⊢
    have hhead : (analysisTick notes semitones s inp).2.activeId = some i :=
      hall _ (by simp)
    rcases analysisTick_active_cases notes semitones s inp i hhead with
      ⟨_, _, _, _, hne⟩ | ⟨h1, h2, _⟩
    · exact absurd hg hne
    · rw [hitCount_cons_none _ h1]
      exact ih _ (h2.trans hg) (fun o ho => hall o (by simp [ho]))

/-- **C3 (amended)** — For every run of consecutive ticks whose active target
continuously carries note id `i` (nonempty), at most one hit event for `i`
is emitted; *exactly* one if some tick of the run classifies on-pitch *and
the guard does not already hold `i` when the run begins*.  And after the
target changes, a later on-pitch tick on `i` emits a (second) hit for `i`
*provided the guard no longer holds `i` at that tick* — the intervening
ticks must have overwritten it (an on-pitch tick on the other id) or cleared
it (a pitch-detected tick with no active target); merely passing through
another note off-pitch does not. -/
theorem noteHit_arbiter_spec :
    (∀ (notes : List Note) (semitones : ℤ) (s : TickState) (L : List TickInput) (i : String),
      i ≠ "" →
      (∀ o ∈ (runTicks notes semitones s L).2, o.activeId = some i) →
      hitCount i (runTicks notes semitones s L).2 ≤ 1 ∧
        (s.lastHit ≠ some i →
          (∃ o ∈ (runTicks notes semitones s L).2, o.onPitch = true) →
          hitCount i (runTicks notes semitones s L).2 = 1)) ∧
    (∀ (notes : List Note) (semitones : ℤ) (s : TickState) (inp : TickInput) (i : String),
      (analysisTick notes semitones s inp).2.activeId = some i →
      (analysisTick notes semitones s inp).2.onPitch = true →
      i ≠ "" → s.lastHit ≠ some i →
      (analysisTick notes semitones s inp).2.hit = some i) := by
  constructor
  · intro notes semitones s L i hi
    induction L generalizing s with
    | nil =>
      intro _
      exact ⟨by simp [runTicks, hitCount], fun _ h => by simp [runTicks] at h⟩
    | cons inp rest ih =>
      intro hall
      rw [runTicks_cons] at hall ⊢
      have hhead : (analysisTick notes semitones s inp).2.activeId = some i :=
        hall _ (by simp)
      have htail : ∀ o ∈ (runTicks notes semitones (analysisTick notes semitones s inp).1 rest).2,
          o.activeId = some i := fun o ho => hall o (by simp [ho])
      rcases analysisTick_active_cases notes semitones s inp i hhead with
        ⟨h1, h2, _, _, _⟩ | ⟨h1, h2, h3⟩
      · -- the head tick hits: the guard now holds `i`, the tail emits nothing
        have h0 := run_no_hit_of_guard notes semitones i rest _ h2 htail
        rw [hitCount_cons_hit _ h1, h0]
        exact ⟨le_refl 1, fun _ _ => rfl⟩
      · -- the head tick does not hit: the guard is unchanged
        rw [hitCount_cons_none _ h1]
        obtain ⟨hle, hone⟩ := ih (analysisTick notes semitones s inp).1 htail
        refine ⟨hle, ?_⟩
        intro hg hex
        have hg' : (analysisTick notes semitones s inp).1.lastHit ≠ some i := by
          rw [h2]; exact hg
        rcases hex with ⟨o, ho, honp⟩
        rcases List.mem_cons.mp ho with rfl | ho'
        · exact absurd ⟨honp, hi, hg⟩ h3
        · exact hone hg' ⟨o, ho', honp⟩
  · intro notes semitones s inp i hact honp hi hg
    rcases analysisTick_active_cases notes semitones s inp i hact with
      ⟨h1, _⟩ | ⟨_, _, h3⟩
    · exact h1
    · exact absurd ⟨honp, hi, hg⟩ h3

/-- The note `{id:"b", start:5, dur:1}`, leaving a silent gap after note "a". -/
def noteB5 : Note := ⟨"b", 5, 1, 71, 493, "B"⟩

theorem gap_candidate_tick1 :
    activeCandidate [noteA, noteB5] (1/2) 0 = .ok (0, some noteA) := by
  rw [activeCandidate, resolveCursor,
    advanceCursor_stop [noteA, noteB5] (1/2) 0 noteA rfl (by norm_num [noteA])]
  norm_num [retreatCursor, noteA]

theorem gap_candidate_tick2 :
    activeCandidate [noteA, noteB5] 3 0 = .ok (0, none) := by
  rw [activeCandidate, resolveCursor,
    advanceCursor_step [noteA, noteB5] 3 0 noteA rfl (by norm_num [noteA]),
    advanceCursor_stop [noteA, noteB5] 3 1 noteB5 rfl (by norm_num [noteB5])]
  norm_num [retreatCursor, noteA, noteB5]

theorem gap_tick1_state :
    (analysisTick [noteA, noteB5] 0 initState ⟨0, 1/2, some ⟨440, 69⟩⟩).1 =
      ⟨0, some "a", 0, 0, [⟨1/2, 69, true⟩]⟩ := by
  have hoct : isOctaveEquivalent (noteA.pitch + 0) 69 = true := by decide
  simp only [analysisTick, initState, gap_candidate_tick1, Option.map_some',
    transposeNote_id, transposeNote_pitch]
  split
  · norm_num [UI_UPDATE_MS, HISTORY_FLUSH_MS, hoct, Bool.or_true, noteA]
    exact Or.inr (by decide)
  · rename_i hcond
    exfalso
    apply hcond
    refine ⟨by rw [hoct, Bool.or_true], by decide, by decide⟩

theorem gap_tick1_activeId :
    (analysisTick [noteA, noteB5] 0 initState ⟨0, 1/2, some ⟨440, 69⟩⟩).2.activeId =
      some "a" := by
  simp only [analysisTick, initState, gap_candidate_tick1, Option.map_some', transposeNote_id]
  rfl

theorem gap_tick1_onPitch :
    (analysisTick [noteA, noteB5] 0 initState ⟨0, 1/2, some ⟨440, 69⟩⟩).2.onPitch = true := by
  simp only [analysisTick, initState, gap_candidate_tick1, Option.map_some',
    transposeNote_id, transposeNote_pitch]
  split <;> (simp; exact Or.inr (by decide))

/-- Witness for `noteHit_arbiter_spec`: a one-tick run occupying note "a"
on-pitch from a clear guard emits exactly one hit for "a". -/
theorem noteHit_arbiter_witness :
    ("a" : String) ≠ "" ∧
      (∀ o ∈ (runTicks [noteA, noteB5] 0 initState [⟨0, 1/2, some ⟨440, 69⟩⟩]).2,
        o.activeId = some "a") ∧
      initState.lastHit ≠ some "a" ∧
      (∃ o ∈ (runTicks [noteA, noteB5] 0 initState [⟨0, 1/2, some ⟨440, 69⟩⟩]).2,
        o.onPitch = true) ∧
      hitCount "a" (runTicks [noteA, noteB5] 0 initState [⟨0, 1/2, some ⟨440, 69⟩⟩]).2 = 1 := by
  have hall : ∀ o ∈ (runTicks [noteA, noteB5] 0 initState [⟨0, 1/2, some ⟨440, 69⟩⟩]).2,
      o.activeId = some "a" := by
    intro o ho
    rw [runTicks_cons] at ho
    simp only [runTicks, List.mem_singleton] at ho
    rw [ho]
    exact gap_tick1_activeId
  have hg : initState.lastHit ≠ some "a" := by simp [initState]
  have hex : ∃ o ∈ (runTicks [noteA, noteB5] 0 initState [⟨0, 1/2, some ⟨440, 69⟩⟩]).2,
      o.onPitch = true := by
    refine ⟨(analysisTick [noteA, noteB5] 0 initState ⟨0, 1/2, some ⟨440, 69⟩⟩).2,
      ?_, gap_tick1_onPitch⟩
    rw [runTicks_cons]
    simp [runTicks]
  exact ⟨by decide, hall, hg, hex,
    (noteHit_arbiter_spec.1 [noteA, noteB5] 0 initState [⟨0, 1/2, some ⟨440, 69⟩⟩] "a"
      (by decide) hall).2 hg hex⟩

theorem gap_tick2_state :
    (analysisTick [noteA, noteB5] 0 (⟨0, some "a", 0, 0, [⟨1/2, 69, true⟩]⟩ : TickState)
        ⟨1000, 3, none⟩).1 =
      ⟨0, some "a", 1000, 0, [⟨1/2, 69, true⟩]⟩ := by
  simp only [analysisTick, gap_candidate_tick2]
  norm_num [UI_UPDATE_MS]

theorem gap_tick2_activeId :
    (analysisTick [noteA, noteB5] 0 (⟨0, some "a", 0, 0, [⟨1/2, 69, true⟩]⟩ : TickState)
        ⟨1000, 3, none⟩).2.activeId = none := by
  simp [analysisTick, gap_candidate_tick2]

/-- **C2 counterexample** — notes `[a(0,1), b(5,1)]`: tick 1 (t = 0.5, pitch
detected, on-pitch) hits "a" and sets the guard; tick 2 (t = 3, with *no*
pitch detected) reports no active target, yet the guard still holds "a"
afterwards — the claim says it would be cleared regardless of whether a
pitch was detected. -/
theorem noTarget_guard_counterexample :
    ((runTicks [noteA, noteB5] 0 initState
        [⟨0, 1/2, some ⟨440, 69⟩⟩, ⟨1000, 3, none⟩]).2.map TickObs.activeId =
      [some "a", none]) ∧
      (runTicks [noteA, noteB5] 0 initState
        [⟨0, 1/2, some ⟨440, 69⟩⟩, ⟨1000, 3, none⟩]).1.lastHit = some "a" := by
  rw [runTicks_cons, gap_tick1_state, runTicks_cons, gap_tick2_state]
  constructor
  · simp only [runTicks, List.map_cons, List.map_nil, gap_tick1_activeId, gap_tick2_activeId]
  · rfl

theorem midiToFrequency_pos (m : ℤ) : 0 < midiToFrequency m := by
  unfold midiToFrequency
  have : (0 : ℝ) < (2 : ℝ) ^ (((m : ℝ) - 69) / 12) := Real.rpow_pos_of_pos (by norm_num) _
  linarith

/-- Target B4 (midi 71), detected D5 (midi 74): three semitones sharp, i.e.
+300 cents after octave wrapping. -/
theorem dev_71_74 :
    centsToNearestOctave (midiToFrequency (noteB.pitch + 0)) (midiToFrequency 74) = 300 := by
  have h71 : midiToFrequency (noteB.pitch + 0) = 440 * (2 : ℝ) ^ ((2 : ℝ) / 12) := by
    show (440 : ℝ) * _ = _
    norm_num [noteB]
  have h74 : midiToFrequency 74 = 440 * (2 : ℝ) ^ ((5 : ℝ) / 12) := by
    show (440 : ℝ) * _ = _
    norm_num
  rw [centsToNearestOctave,
    if_neg (by push_neg; exact ⟨midiToFrequency_pos _, midiToFrequency_pos _⟩)]
  have hratio : midiToFrequency 74 / midiToFrequency (noteB.pitch + 0) =
      (2 : ℝ) ^ ((1 : ℝ) / 4) := by
    rw [h71, h74, mul_div_mul_left _ _ (by norm_num : (440 : ℝ) ≠ 0),
      ← Real.rpow_sub (by norm_num : (0 : ℝ) < 2)]
    norm_num
  rw [hratio, Real.logb_rpow (by norm_num : (0 : ℝ) < 2) (by norm_num : (2 : ℝ) ≠ 1)]
  rw [show (1200 : ℝ) * (1 / 4) = 300 by norm_num]
  unfold wrapCents
  rw [wrapDown_of_le (by norm_num), wrapUp_of_ge (by norm_num)]

theorem cex_candidate_tick1 :
    activeCandidate [noteA, noteB] (1/2) 0 = .ok (0, some noteA) := by
  rw [activeCandidate, resolveCursor,
    advanceCursor_stop [noteA, noteB] (1/2) 0 noteA rfl (by norm_num [noteA])]
  norm_num [retreatCursor, noteA]

theorem cex_candidate_tick2 :
    activeCandidate [noteA, noteB] (3/2) 0 = .ok (1, some noteB) := by
  rw [activeCandidate, resolveCursor,
    advanceCursor_step [noteA, noteB] (3/2) 0 noteA rfl (by norm_num [noteA]),
    advanceCursor_stop [noteA, noteB] (3/2) 1 noteB rfl (by norm_num [noteB])]
  norm_num [retreatCursor, noteB]

theorem cex_candidate_tick3 :
    activeCandidate [noteA, noteB] (1/2) 1 = .ok (0, some noteA) := by
  rw [activeCandidate, resolveCursor,
    advanceCursor_stop [noteA, noteB] (1/2) 1 noteB rfl (by norm_num [noteB])]
  norm_num [retreatCursor, noteA, noteB]

theorem cex_tick1_state :
    (analysisTick [noteA, noteB] 0 initState ⟨0, 1/2, some ⟨440, 69⟩⟩).1 =
      ⟨0, some "a", 0, 0, [⟨1/2, 69, true⟩]⟩ := by
  have hoct : isOctaveEquivalent (noteA.pitch + 0) 69 = true := by decide
  simp only [analysisTick, initState, cex_candidate_tick1, Option.map_some',
    transposeNote_id, transposeNote_pitch]
  split
  · norm_num [UI_UPDATE_MS, HISTORY_FLUSH_MS, hoct, Bool.or_true, noteA]
    exact Or.inr (by decide)
  · rename_i hcond
    exfalso
    apply hcond
    refine ⟨by rw [hoct, Bool.or_true], by decide, by decide⟩

theorem cex_tick1_obs :
    ((analysisTick [noteA, noteB] 0 initState ⟨0, 1/2, some ⟨440, 69⟩⟩).2.activeId = some "a") ∧
      ((analysisTick [noteA, noteB] 0 initState ⟨0, 1/2, some ⟨440, 69⟩⟩).2.onPitch = true) ∧
      ((analysisTick [noteA, noteB] 0 initState ⟨0, 1/2, some ⟨440, 69⟩⟩).2.hit = some "a") := by
  have hoct : isOctaveEquivalent (noteA.pitch + 0) 69 = true := by decide
  refine ⟨?_, ?_, ?_⟩ <;>
    simp only [analysisTick, initState, cex_candidate_tick1, Option.map_some',
      transposeNote_id, transposeNote_pitch]
  · rfl
  · split <;> (simp; exact Or.inr (by decide))
  · split
    · rfl
    · rename_i hcond
      exfalso
      apply hcond
      refine ⟨by rw [hoct, Bool.or_true], by decide, by decide⟩

theorem cex_tick2_state :
    (analysisTick [noteA, noteB] 0 (⟨0, some "a", 0, 0, [⟨1/2, 69, true⟩]⟩ : TickState)
        ⟨1000, 3/2, some ⟨midiToFrequency 74, 74⟩⟩).1 =
      ⟨1, some "a", 1000, 1000, []⟩ := by
  simp only [analysisTick, cex_candidate_tick2, Option.map_some', transposeNote_id,
    transposeNote_pitch, transposeNote_frequency, dev_71_74]
  split
  · rename_i hcond
    exfalso
    rcases hcond with ⟨h1, _⟩
    simp only [Bool.or_eq_true, decide_eq_true_eq] at h1
    rcases h1 with h1 | h1
    · norm_num at h1
    · exact absurd h1 (by decide)
  · norm_num [UI_UPDATE_MS, HISTORY_FLUSH_MS]

theorem cex_tick2_obs :
    ((analysisTick [noteA, noteB] 0 (⟨0, some "a", 0, 0, [⟨1/2, 69, true⟩]⟩ : TickState)
        ⟨1000, 3/2, some ⟨midiToFrequency 74, 74⟩⟩).2.activeId = some "b") ∧
      ((analysisTick [noteA, noteB] 0 (⟨0, some "a", 0, 0, [⟨1/2, 69, true⟩]⟩ : TickState)
        ⟨1000, 3/2, some ⟨midiToFrequency 74, 74⟩⟩).2.onPitch = false) ∧
      ((analysisTick [noteA, noteB] 0 (⟨0, some "a", 0, 0, [⟨1/2, 69, true⟩]⟩ : TickState)
        ⟨1000, 3/2, some ⟨midiToFrequency 74, 74⟩⟩).2.hit = none) := by
  refine ⟨?_, ?_, ?_⟩ <;>
    simp only [analysisTick, cex_candidate_tick2, Option.map_some', transposeNote_id,
      transposeNote_pitch, transposeNote_frequency, dev_71_74]
  · rfl
  · split <;> (simp; constructor)
    · norm_num
    · decide
    · norm_num
    · decide
  · split
    · rename_i hcond
      exfalso
      rcases hcond with ⟨h1, _⟩
      simp only [Bool.or_eq_true, decide_eq_true_eq] at h1
      rcases h1 with h1 | h1
      · norm_num at h1
      · exact absurd h1 (by decide)
    · rfl

theorem cex_tick3_state :
    (analysisTick [noteA, noteB] 0 (⟨1, some "a", 1000, 1000, []⟩ : TickState)
        ⟨2000, 1/2, some ⟨440, 69⟩⟩).1 =
      ⟨0, some "a", 2000, 2000, []⟩ := by
  simp only [analysisTick, cex_candidate_tick3, Option.map_some', transposeNote_id,
    transposeNote_pitch]
  split
  · rename_i hcond
    exact absurd rfl hcond.2.2
  · norm_num [UI_UPDATE_MS, HISTORY_FLUSH_MS]

theorem cex_tick3_obs :
    ((analysisTick [noteA, noteB] 0 (⟨1, some "a", 1000, 1000, []⟩ : TickState)
        ⟨2000, 1/2, some ⟨440, 69⟩⟩).2.activeId = some "a") ∧
      ((analysisTick [noteA, noteB] 0 (⟨1, some "a", 1000, 1000, []⟩ : TickState)
        ⟨2000, 1/2, some ⟨440, 69⟩⟩).2.onPitch = true) ∧
      ((analysisTick [noteA, noteB] 0 (⟨1, some "a", 1000, 1000, []⟩ : TickState)
        ⟨2000, 1/2, some ⟨440, 69⟩⟩).2.hit = none) := by
  refine ⟨?_, ?_, ?_⟩ <;>
    simp only [analysisTick, cex_candidate_tick3, Option.map_some', transposeNote_id,
      transposeNote_pitch]
  · rfl
  · split <;> (simp; exact Or.inr (by decide))
  · split
    · rename_i hcond
      exact absurd rfl hcond.2.2
    · rfl

/-- **C3 counterexample** — notes `[a(0,1), b(1,1)]`, ticks at t = 0.5 (A4
sung, on-pitch for "a"), t = 1.5 (D5 sung, 300 cents off "b", not on-pitch),
t = 0.5 again after a rewind (on-pitch for "a").  The active target changes
"a" → "b" → "a" and the return tick is on-pitch, but *no second hit* for "a"
is emitted — the off-pitch visit to "b" never touched the guard, which still
holds "a".  Total hits for "a": one, where the claim promises two. -/
theorem secondHit_counterexample :
    ((runTicks [noteA, noteB] 0 initState
        [⟨0, 1/2, some ⟨440, 69⟩⟩, ⟨1000, 3/2, some ⟨midiToFrequency 74, 74⟩⟩,
          ⟨2000, 1/2, some ⟨440, 69⟩⟩]).2.map TickObs.activeId =
      [some "a", some "b", some "a"]) ∧
      ((runTicks [noteA, noteB] 0 initState
        [⟨0, 1/2, some ⟨440, 69⟩⟩, ⟨1000, 3/2, some ⟨midiToFrequency 74, 74⟩⟩,
          ⟨2000, 1/2, some ⟨440, 69⟩⟩]).2.map TickObs.onPitch = [true, false, true]) ∧
      ((runTicks [noteA, noteB] 0 initState
        [⟨0, 1/2, some ⟨440, 69⟩⟩, ⟨1000, 3/2, some ⟨midiToFrequency 74, 74⟩⟩,
          ⟨2000, 1/2, some ⟨440, 69⟩⟩]).2.map TickObs.hit = [some "a", none, none]) ∧
      hitCount "a" (runTicks [noteA, noteB] 0 initState
        [⟨0, 1/2, some ⟨440, 69⟩⟩, ⟨1000, 3/2, some ⟨midiToFrequency 74, 74⟩⟩,
          ⟨2000, 1/2, some ⟨440, 69⟩⟩]).2 = 1 := by
  rw [runTicks_cons, cex_tick1_state, runTicks_cons, cex_tick2_state,
    runTicks_cons, cex_tick3_state]
  refine ⟨?_, ?_, ?_, ?_⟩ <;>
    simp only [runTicks, List.map_cons, List.map_nil,
      cex_tick1_obs.1, cex_tick1_obs.2.1, cex_tick1_obs.2.2,
      cex_tick2_obs.1, cex_tick2_obs.2.1, cex_tick2_obs.2.2,
      cex_tick3_obs.1, cex_tick3_obs.2.1, cex_tick3_obs.2.2]
  rw [hitCount_cons_hit _ cex_tick1_obs.2.2, hitCount_cons_none _ cex_tick2_obs.2.2,
    hitCount_cons_none _ cex_tick3_obs.2.2, hitCount_nil]

/-- **C10** — The per-tick target-note lookup does *not* read only in-bounds
indices: at `t = 2.5` on the example notes the advance loop stops at index
2 = length, and the retreat loop then dereferences `notes[2]`, one past the
end, instead of completing with no active target. -/
theorem tracker_reads_out_of_bounds :
    advanceCursor [noteA, noteB] (5/2) 0 = 2 ∧
      ([noteA, noteB] : List Note).length = 2 ∧
      resolveCursor [noteA, noteB] (5/2) 0 = .error 2 := by
  have ha3 : advanceCursor [noteA, noteB] (5/2) 0 = 2 := by
    rw [advanceCursor_step [noteA, noteB] (5/2) 0 noteA rfl (by norm_num [noteA])]
    rw [advanceCursor_step [noteA, noteB] (5/2) 1 noteB rfl (by norm_num [noteB])]
    exact advanceCursor_none [noteA, noteB] (5/2) 2 rfl
  exact ⟨ha3, rfl, by rw [resolveCursor, ha3]; rfl⟩

end VocalCouch
